import Mathlib

/-!
Verification development for the decoration-metadata index of the SPIR-V
optimizer (source file: source/opt/decoration_manager.cpp).

The embedding models:
  - instructions as records of a unique handle (uid), an opcode, a result id
    and an in-operand list (each operand is its list of 32-bit words,
    modelled as natural numbers);
  - the module as the ordered annotation-section instruction list;
  - the index (id_to_decoration_insts_) as an association list from id to
    TargetData, holding instruction handles;
  - use-tracker notifications, operand mutations, insertions and deletions
    as an explicit event trace;
  - assertion failures as Option.none results.
-/

namespace SpvOpt

/-- Opcode of an annotation-section instruction.  The six decoration forms
recognized by the decoration manager, plus the group-defining opcode and a
stand-in for any other opcode. -/
inductive SpvOp where
  | Decorate
  | MemberDecorate
  | DecorateId
  | DecorateStringGOOGLE
  | GroupDecorate
  | GroupMemberDecorate
  | DecorationGroup
  | Nop
deriving DecidableEq, Repr

/-- The SpvDecorationLinkageAttributes decoration-kind word. -/
def SpvDecorationLinkageAttributes : Nat := 41

/-- An IR instruction: unique handle (standing for the C++ object identity),
opcode, result id (0 when the instruction has none) and the list of
in-operands, each given by its word list. -/
structure Instruction where
  uid : Nat
  opcode : SpvOp
  resultId : Nat
  inOperands : List (List Nat)
deriving DecidableEq, Repr

instance : Inhabited Instruction := ⟨⟨0, SpvOp.Nop, 0, []⟩⟩

/-- Instruction.NumInOperands. -/
def Instruction.numInOperands (i : Instruction) : Nat := i.inOperands.length

/-- Instruction.GetInOperand: the word list of in-operand k. -/
def Instruction.getInOperand (i : Instruction) (k : Nat) : List Nat :=
  i.inOperands.getD k []

/-- Instruction.GetSingleWordInOperand: first word of in-operand k. -/
def Instruction.getSingleWordInOperand (i : Instruction) (k : Nat) : Nat :=
  (i.getInOperand k).headD 0

/-- Instruction.SetInOperand / assignment to GetInOperand(k). -/
def Instruction.setInOp (i : Instruction) (k : Nat) (w : List Nat) : Instruction :=
  { i with inOperands := i.inOperands.set k w }

/-- Instruction.RemoveInOperand(k). -/
def Instruction.removeInOp (i : Instruction) (k : Nat) : Instruction :=
  { i with inOperands := i.inOperands.take k ++ i.inOperands.drop (k + 1) }

/-- Instruction.AddOperand (decoration instructions carry no result operands,
so operand indices coincide with in-operand indices). -/
def Instruction.addOp (i : Instruction) (w : List Nat) : Instruction :=
  { i with inOperands := i.inOperands ++ [w] }

/-- TargetData: the three per-id collections of instruction handles. -/
structure TargetData where
  direct_decorations : List Nat
  indirect_decorations : List Nat
  decorate_insts : List Nat
deriving DecidableEq, Repr

instance : Inhabited TargetData := ⟨⟨[], [], []⟩⟩

/-- The id-to-TargetData mapping (std::unordered_map with unique keys,
modelled as an association list). -/
abbrev DMap : Type := List (Nat × TargetData)

/-- Map lookup (find on the unordered_map). -/
def assocFind (m : DMap) (k : Nat) : Option TargetData :=
  (List.find? (fun p => p.1 == k) m).map Prod.snd

/-- Update the value stored under an existing key; no-op when the key is
absent (models mutation through a found iterator, with the iter==end()
early return). -/
def assocUpdateExisting (m : DMap) (k : Nat) (f : TargetData → TargetData) : DMap :=
  List.map (fun p => if p.1 == k then (p.1, f p.2) else p) m

/-- operator[]-style access: update the existing record, or insert a fresh
default-constructed record and update it. -/
def mapUpsert (m : DMap) (k : Nat) (f : TargetData → TargetData) : DMap :=
  if List.any m (fun p => p.1 == k) then assocUpdateExisting m k f
  else m ++ [(k, f default)]

/-- Erase the key from the map (keys are unique in the C++ map; filtering
all occurrences coincides with erasing the found entry). -/
def assocErase (m : DMap) (k : Nat) : DMap :=
  List.filter (fun p => !(p.1 == k)) m

/-- Events observable at the boundary with the instruction store and the
use tracker. -/
inductive Event where
  | forgetUses (uid : Nat)
  | analyzeUses (uid : Nat)
  | mutateOperands (uid : Nat)
  | addInst (uid : Nat)
  | killInst (uid : Nat)
deriving DecidableEq, Repr

/-- Whole-system state: the module annotation list, the decoration index,
and the next fresh instruction handle used for clones. -/
structure MState where
  annotations : List Instruction
  dm : DMap
  nextUid : Nat
deriving DecidableEq

/-- Dereference an instruction handle in a list of instructions. -/
def listInstAt (l : List Instruction) (uid : Nat) : Instruction :=
  (List.find? (fun i => i.uid == uid) l).getD default

/-- Dereference an instruction handle (pointer) in the module. -/
def MState.instAt (s : MState) (uid : Nat) : Instruction :=
  listInstAt s.annotations uid

/-- Write back a mutated instruction (the C++ mutates the object in place;
handles are unique). -/
def listSetInst (l : List Instruction) (uid : Nat) (newInst : Instruction) :
    List Instruction :=
  List.map (fun i => if i.uid == uid then newInst else i) l

/-- The indices start, start+stride, ... below n (the head loops of the
group-apply forms); fuel-bounded, with fuel = n sufficient for stride >= 1. -/
def strided (start stride fuel n : Nat) : List Nat :=
  match fuel with
  | 0 => []
  | f + 1 => if start < n then start :: strided (start + stride) stride f n else []

/-- DecorationManager::AddDecoration: classify one annotation instruction
into the index. -/
def AddDecoration (dm : DMap) (inst : Instruction) : DMap :=
  match inst.opcode with
  | SpvOp.Decorate | SpvOp.DecorateId | SpvOp.DecorateStringGOOGLE
  | SpvOp.MemberDecorate =>
    mapUpsert dm (inst.getSingleWordInOperand 0) (fun td =>
      { td with direct_decorations := td.direct_decorations ++ [inst.uid] })
  | SpvOp.GroupDecorate | SpvOp.GroupMemberDecorate =>
    let start := if inst.opcode == SpvOp.GroupDecorate then 1 else 2
    let dm1 := List.foldl (fun m i =>
        mapUpsert m (inst.getSingleWordInOperand i) (fun td =>
          { td with indirect_decorations := td.indirect_decorations ++ [inst.uid] }))
      dm (strided start start inst.numInOperands inst.numInOperands)
    mapUpsert dm1 (inst.getSingleWordInOperand 0) (fun td =>
      { td with decorate_insts := td.decorate_insts ++ [inst.uid] })
  | _ => dm

/-- DecorationManager::AnalyzeDecorations: full-scan construction of the
index from the annotation section. -/
def AnalyzeDecorations (annos : List Instruction) : DMap :=
  List.foldl AddDecoration [] annos

/-- The push-back condition of process_direct_decorations: keep the handle
unless it is an OpDecorate carrying LinkageAttributes and include_linkage
is not set. -/
def includeInst (s : MState) (include_linkage : Bool) (uid : Nat) : Bool :=
  include_linkage ||
    !((s.instAt uid).opcode == SpvOp.Decorate &&
      (s.instAt uid).getSingleWordInOperand 1 == SpvDecorationLinkageAttributes)

/-- The loop over the groups applied to an id inside
InternalGetDecorationsFor; none models the Unknown-group-ID assertion. -/
def groupDirectsList (s : MState) (include_linkage : Bool) :
    List Nat → Option (List Nat)
  | [] => some []
  | uid :: rest =>
    match assocFind s.dm ((s.instAt uid).getSingleWordInOperand 0) with
    | none => none
    | some gtd =>
      match groupDirectsList s include_linkage rest with
      | none => none
      | some tail =>
        some (List.filter (includeInst s include_linkage)
                gtd.direct_decorations ++ tail)

/-- DecorationManager::InternalGetDecorationsFor. -/
def InternalGetDecorationsFor (s : MState) (id : Nat) (include_linkage : Bool) :
    Option (List Nat) :=
  match assocFind s.dm id with
  | none => some []
  | some td =>
    match groupDirectsList s include_linkage td.indirect_decorations with
    | none => none
    | some g =>
      some (List.filter (includeInst s include_linkage) td.direct_decorations ++ g)

/-- DecorationManager::GetDecorationsFor. -/
def GetDecorationsFor (s : MState) (id : Nat) (include_linkage : Bool) :
    Option (List Nat) :=
  InternalGetDecorationsFor s id include_linkage

/-- The decoration payload fingerprint built by fillDecorationSets: the
concatenated words of every in-operand except operand 0 (the target). -/
def payload (inst : Instruction) : List Nat :=
  (inst.inOperands.drop 1).flatten

/-- One of the four per-opcode fingerprint sets built by
fillDecorationSets (std::set semantics: deduplicated). -/
def fillSetFor (s : MState) (uids : List Nat) (op : SpvOp) : Finset (List Nat) :=
  (List.map payload
    (List.filter (fun i => i.opcode == op) (List.map s.instAt uids))).toFinset

/-- DecorationManager::HaveTheSameDecorations. -/
def HaveTheSameDecorations (s : MState) (id1 id2 : Nat) : Option Bool := do
  let l1 ← GetDecorationsFor s id1 false
  let l2 ← GetDecorationsFor s id2 false
  pure (decide (fillSetFor s l1 SpvOp.Decorate = fillSetFor s l2 SpvOp.Decorate ∧
    fillSetFor s l1 SpvOp.DecorateId = fillSetFor s l2 SpvOp.DecorateId ∧
    fillSetFor s l1 SpvOp.MemberDecorate = fillSetFor s l2 SpvOp.MemberDecorate ∧
    fillSetFor s l1 SpvOp.DecorateStringGOOGLE =
      fillSetFor s l2 SpvOp.DecorateStringGOOGLE))

/-- DecorationManager::AreDecorationsTheSame.  The loop comparing operands
from index (ignore_target ? 1 : 0) onward is, given the equal operand
counts, the equality of the dropped operand lists. -/
def AreDecorationsTheSame (inst1 inst2 : Instruction) (ignore_target : Bool) :
    Bool :=
  match inst1.opcode with
  | SpvOp.Decorate | SpvOp.MemberDecorate | SpvOp.DecorateId
  | SpvOp.DecorateStringGOOGLE =>
    if inst1.opcode != inst2.opcode ||
        inst1.numInOperands != inst2.numInOperands then false
    else
      decide (inst1.inOperands.drop (if ignore_target then 1 else 0) =
              inst2.inOperands.drop (if ignore_target then 1 else 0))
  | _ => false

/-- The enumeration loop of WhileEachDecoration; none models the
Unexpected-decoration-instruction assertion. -/
def whileEachLoop (s : MState) (decoration : Nat) (f : Instruction → Bool) :
    List Nat → Option Bool
  | [] => some true
  | uid :: rest =>
    let inst := s.instAt uid
    match inst.opcode with
    | SpvOp.MemberDecorate =>
      if inst.getSingleWordInOperand 2 == decoration then
        if f inst then whileEachLoop s decoration f rest else some false
      else whileEachLoop s decoration f rest
    | SpvOp.Decorate | SpvOp.DecorateId | SpvOp.DecorateStringGOOGLE =>
      if inst.getSingleWordInOperand 1 == decoration then
        if f inst then whileEachLoop s decoration f rest else some false
      else whileEachLoop s decoration f rest
    | _ => none

/-- DecorationManager::WhileEachDecoration (ForEachDecoration is this with
an always-true callback). -/
def WhileEachDecoration (s : MState) (id decoration : Nat)
    (f : Instruction → Bool) : Option Bool := do
  let l ← GetDecorationsFor s id true
  whileEachLoop s decoration f l

/-- std::remove of a handle from a collection. -/
def remove_from_container (uid : Nat) (v : List Nat) : List Nat :=
  List.filter (fun u => u != uid) v

/-- DecorationManager::RemoveDecoration (unindex): remove the instruction
from every collection referencing it; unknown opcodes are silently
ignored; records are never pruned. -/
def RemoveDecoration (dm : DMap) (inst : Instruction) : DMap :=
  match inst.opcode with
  | SpvOp.Decorate | SpvOp.DecorateId | SpvOp.DecorateStringGOOGLE
  | SpvOp.MemberDecorate =>
    assocUpdateExisting dm (inst.getSingleWordInOperand 0) (fun td =>
      { td with direct_decorations :=
          remove_from_container inst.uid td.direct_decorations })
  | SpvOp.GroupDecorate | SpvOp.GroupMemberDecorate =>
    let stride := if inst.opcode == SpvOp.GroupDecorate then 1 else 2
    let dm1 := List.foldl (fun m i =>
        assocUpdateExisting m (inst.getSingleWordInOperand i) (fun td =>
          { td with indirect_decorations :=
              remove_from_container inst.uid td.indirect_decorations }))
      dm (strided 1 stride inst.numInOperands inst.numInOperands)
    assocUpdateExisting dm1 (inst.getSingleWordInOperand 0) (fun td =>
      { td with decorate_insts := remove_from_container inst.uid td.decorate_insts })
  | _ => dm

/-- Modelled from the spec: IRContext::KillInst, the Instruction Store
collaborator's physical-delete operation, is not part of this repository.
Per section 6 it physically deletes the instruction, and per section 4.4
the deleting collaborator unindexes a deleted decoration instruction from
the Decoration Index (this is what DecorationManager::RemoveDecoration is
for and what makes the final record-pruning check of RemoveDecorationsFrom
observe emptied collections). -/
def KillInst (s : MState) (uid : Nat) : MState × List Event :=
  let inst := s.instAt uid
  let dm1 := RemoveDecoration s.dm inst
  (⟨List.filter (fun i => i.uid != uid) s.annotations, dm1, s.nextUid⟩,
   [Event.killInst uid])

/-- Kill a batch of scheduled instructions in order. -/
def killAll (s : MState) (uids : List Nat) : MState × List Event :=
  List.foldl (fun (a : MState × List Event) u =>
    let (s1, tr) := KillInst a.1 u
    (s1, a.2 ++ tr)) (s, []) uids

/-- The swap-with-last compaction loop of RemoveDecorationsFrom removing id
from the target operands of a group-apply instruction.  One mutateOperands
event is emitted per primitive operand assignment and per operand removal.
Fuel-bounded: n - i shrinks by stride >= 1 every iteration, so fuel =
NumInOperands suffices. -/
def compactTargets (id stride : Nat) :
    Nat → Nat → Instruction → Bool → List Event → Instruction × Bool × List Event
  | 0, _, inst, m, tr => (inst, m, tr)
  | fuel + 1, i, inst, m, tr =>
    if i < inst.numInOperands then
      if inst.getSingleWordInOperand i != id then
        compactTargets id stride fuel (i + stride) inst m tr
      else
        let last := inst.numInOperands - stride
        let inst1 := if i < last then inst.setInOp i (inst.getInOperand last) else inst
        let tr1 := if i < last then tr ++ [Event.mutateOperands inst.uid] else tr
        let inst2 :=
          if stride == 2 then
            let a := if i < last then inst1.setInOp (i + 1) (inst1.getInOperand (last + 1))
                     else inst1
            a.removeInOp (last + 1)
          else inst1
        let tr2 :=
          if stride == 2 then
            (if i < last then tr1 ++ [Event.mutateOperands inst.uid] else tr1) ++
              [Event.mutateOperands inst.uid]
          else tr1
        compactTargets id stride fuel i (inst2.removeInOp last) true
          (tr2 ++ [Event.mutateOperands inst.uid])
    else (inst, m, tr)

/-- Accumulator threaded through the loop over the groups applied to an id
inside RemoveDecorationsFrom. -/
structure RAcc where
  annos : List Instruction
  nextUid : Nat
  toRemove : List Nat
  toKill : List Nat
  tr : List Event

/-- The body of the loop over decorations_info.indirect_decorations in
RemoveDecorationsFrom; none models the opcode assertion and the
Unknown-decoration-group assertion.  The index (dm) is read-only here, as
in the source. -/
def processIndirectOne (dm : DMap) (id : Nat) (pred : Instruction → Bool)
    (acc : RAcc) (uid : Nat) : Option RAcc :=
  let inst := listInstAt acc.annos uid
  if !(inst.opcode == SpvOp.GroupDecorate ||
       inst.opcode == SpvOp.GroupMemberDecorate) then none
  else
    let group_id := inst.getSingleWordInOperand 0
    match assocFind dm group_id with
    | none => none
    | some gtd =>
      let group_decorations := gtd.direct_decorations
      let keep := List.filter (fun d => !pred (listInstAt acc.annos d))
        group_decorations
      if keep.length == group_decorations.length then some acc
      else
        let stride := if inst.opcode == SpvOp.GroupDecorate then 1 else 2
        let (inst2, was_modified, trC) :=
          compactTargets id stride inst.numInOperands 1 inst false []
        let annos2 := listSetInst acc.annos uid inst2
        let acc2 : RAcc :=
          if inst2.numInOperands == 1 then
            { acc with annos := annos2, toRemove := acc.toRemove ++ [uid],
                       toKill := acc.toKill ++ [uid], tr := acc.tr ++ trC }
          else if was_modified then
            { acc with annos := annos2, toRemove := acc.toRemove ++ [uid],
                       tr := acc.tr ++ trC ++
                         [Event.forgetUses uid, Event.analyzeUses uid] }
          else
            { acc with annos := annos2, tr := acc.tr ++ trC }
        some (List.foldl (fun (a : RAcc) d =>
            let src := listInstAt a.annos d
            let c : Instruction :=
              { src with uid := a.nextUid, inOperands := src.inOperands.set 0 [id] }
            { a with annos := a.annos ++ [c], nextUid := a.nextUid + 1,
                     tr := a.tr ++ [Event.addInst c.uid, Event.analyzeUses c.uid] })
          acc2 keep)

/-- RemoveDecorationsFrom up to and including the first kill batch
(lines 37-122 of the source): direct-decoration scheduling, the loop over
applied groups, the erase from the indirect list, and the kills of the
scheduled direct decorations and emptied group-apply instructions. -/
def removeCore (s : MState) (id : Nat) (pred : Instruction → Bool)
    (info : TargetData) : Option (MState × List Event) := do
  let toKill0 := List.filter (fun u => pred (s.instAt u)) info.direct_decorations
  let acc0 : RAcc := ⟨s.annotations, s.nextUid, [], [], []⟩
  let acc ← List.foldlM (processIndirectOne s.dm id pred) acc0
    info.indirect_decorations
  let dm1 := assocUpdateExisting s.dm id (fun td =>
    { td with indirect_decorations :=
        List.filter (fun u => !acc.toRemove.contains u) td.indirect_decorations })
  let s1 : MState := ⟨acc.annos, dm1, acc.nextUid⟩
  let (s2, tr2) := killAll s1 (toKill0 ++ acc.toKill)
  pure (s2, acc.tr ++ tr2)

/-- Lines 124-131 of the source: if id is a group whose decorations no
longer apply to anything, kill every instruction applying the group. -/
def groupEmptyKills (id : Nat) (is_group : Bool) (s : MState) :
    MState × List Event :=
  let info := (assocFind s.dm id).getD default
  if is_group && info.direct_decorations.isEmpty &&
      info.indirect_decorations.isEmpty then
    killAll s info.decorate_insts
  else (s, [])

/-- Modelled from the spec: DefUseManager::GetDef belongs to the external
use tracker; it returns the instruction defining an id.  Decoration-group
definitions live in the annotation section. -/
def getDef (s : MState) (id : Nat) : Option Nat :=
  (List.find? (fun i => i.resultId == id) s.annotations).map Instruction.uid

/-- Lines 133-140 of the source: prune the record if all three collections
emptied, and kill the OpDecorationGroup definition if id was a group; none
models the null-dereference when the group definition is missing. -/
def finalizeRecord (id : Nat) (is_group : Bool) (s : MState) :
    Option (MState × List Event) :=
  if ((assocFind s.dm id).getD default).direct_decorations.isEmpty &&
      ((assocFind s.dm id).getD default).indirect_decorations.isEmpty &&
      ((assocFind s.dm id).getD default).decorate_insts.isEmpty then
    if is_group then
      match getDef ⟨s.annotations, assocErase s.dm id, s.nextUid⟩ id with
      | none => none
      | some u => some (KillInst ⟨s.annotations, assocErase s.dm id, s.nextUid⟩ u)
    else some (⟨s.annotations, assocErase s.dm id, s.nextUid⟩, [])
  else some (s, [])

/-- DecorationManager::RemoveDecorationsFrom. -/
def RemoveDecorationsFrom (s : MState) (id : Nat) (pred : Instruction → Bool) :
    Option (MState × List Event) :=
  match assocFind s.dm id with
  | none => some (s, [])
  | some info =>
    match removeCore s id pred info with
    | none => none
    | some (s2, tr2) =>
      match groupEmptyKills id (!info.decorate_insts.isEmpty) s2 with
      | (s3, tr3) =>
        match finalizeRecord id (!info.decorate_insts.isEmpty) s3 with
        | none => none
        | some (s4, tr4) => some (s4, tr2 ++ tr3 ++ tr4)

/-- The loop of CloneDecorations over the direct decorations of the source
id: clone each instruction, retarget operand 0 to the destination, append
to the annotation list and notify the use tracker of the new instruction. -/
def cloneDirects (toId : Nat) :
    List Instruction × Nat × List Event → List Nat →
    List Instruction × Nat × List Event :=
  List.foldl (fun a d =>
    match a with
    | (annos, nx, tr) =>
      let src := listInstAt annos d
      let c : Instruction :=
        { src with uid := nx, inOperands := src.inOperands.set 0 [toId] }
      (annos ++ [c], nx + 1, tr ++ [Event.addInst nx, Event.analyzeUses nx]))

/-- One step of the CloneDecorations loop over the group-apply instructions
indexed under the source id: for OpGroupDecorate append the destination to
the target list; for OpGroupMemberDecorate append a (destination, literal)
pair per matching (source, literal) pair; none models the opcode
assertion.  The operand reads at i and i+1 use the pre-append positions,
as the source captures NumOperands before the loop. -/
def cloneIndirectStep (fromId toId : Nat) (a : List Instruction × List Event)
    (uid : Nat) : Option (List Instruction × List Event) :=
  match a with
  | (annos, tr) =>
    let inst := listInstAt annos uid
    match inst.opcode with
    | SpvOp.GroupDecorate =>
      some (listSetInst annos uid (inst.addOp [toId]),
        tr ++ [Event.forgetUses uid, Event.mutateOperands uid,
               Event.analyzeUses uid])
    | SpvOp.GroupMemberDecorate =>
      let num := inst.numInOperands
      let pairs := List.filter
        (fun i => (inst.getInOperand i).headD 0 == fromId)
        (strided 1 2 num num)
      let inst2 := { inst with inOperands := inst.inOperands ++
        (List.map (fun i => [[toId], inst.getInOperand (i + 1)]) pairs).flatten }
      let mutEvents := (List.map
        (fun _ => [Event.mutateOperands uid, Event.mutateOperands uid])
        pairs).flatten
      some (listSetInst annos uid inst2,
        tr ++ [Event.forgetUses uid] ++ mutEvents ++ [Event.analyzeUses uid])
    | _ => none

/-- DecorationManager::CloneDecorations.  Note that, as in the source, the
index itself is never updated: clones are inserted into the module and
group-apply operand lists are extended, but no record of the destination
id is created or changed. -/
def CloneDecorations (s : MState) (fromId toId : Nat) :
    Option (MState × List Event) :=
  match assocFind s.dm fromId with
  | none => some (s, [])
  | some dl =>
    match cloneDirects toId (s.annotations, s.nextUid, []) dl.direct_decorations with
    | (annos1, next1, tr1) =>
      match List.foldlM (cloneIndirectStep fromId toId) (annos1, tr1)
          dl.indirect_decorations with
      | none => none
      | some (annos2, tr2) => some (⟨annos2, s.dm, next1⟩, tr2)

/-- Checker for the bracketing discipline claimed of group-apply operand
mutations: every mutateOperands event on an instruction in gids must be
immediately preceded by forgetUses and immediately followed by analyzeUses
on that same instruction. -/
def bracketAux (gids : List Nat) : Option Event → List Event → Bool
  | _, [] => true
  | prev, e :: rest =>
    match e with
    | Event.mutateOperands u =>
      if gids.contains u then
        decide (prev = some (Event.forgetUses u)) &&
        decide (rest.head? = some (Event.analyzeUses u)) &&
        bracketAux gids (some e) rest
      else bracketAux gids (some e) rest
    | _ => bracketAux gids (some e) rest

/-- Top-level bracketing check over a trace. -/
def isBracketed (gids : List Nat) (tr : List Event) : Bool :=
  bracketAux gids none tr

/-- Written from the words of claim C5: a Decorate instruction whose
decoration-kind operand is the linkage-attributes kind is omitted unless
includeLinkage is true (an instruction is kept unless it is such a
Decorate and includeLinkage is off). -/
def specKeeps (s : MState) (include_linkage : Bool) (uid : Nat) : Bool :=
  !((s.instAt uid).opcode == SpvOp.Decorate &&
    ((s.instAt uid).getSingleWordInOperand 1 == SpvDecorationLinkageAttributes &&
      !include_linkage))

/-- Written from the words of claim C5: first the direct decorations of the
id in stored order, then, per group-apply instruction in the indirect list
in order, the direct decorations of the named group (one level of
indirection only); the linkage filter of specKeeps applies; an id with no
record gives the empty sequence. -/
def specDecorationsFor (s : MState) (id : Nat) (include_linkage : Bool) :
    List Nat :=
  match assocFind s.dm id with
  | none => []
  | some td =>
    List.filter (specKeeps s include_linkage) td.direct_decorations ++
    (List.map (fun u =>
        List.filter (specKeeps s include_linkage)
          (match assocFind s.dm ((s.instAt u).getSingleWordInOperand 0) with
           | some g => g.direct_decorations
           | none => [])) td.indirect_decorations).flatten

/-- Well-formedness of the group indirection: every group id named by an
indexed group-apply instruction has a record. -/
def groupWF (s : MState) : Prop :=
  ∀ p ∈ s.dm, ∀ u ∈ p.2.indirect_decorations,
    (assocFind s.dm ((s.instAt u).getSingleWordInOperand 0)).isSome = true

instance (s : MState) : Decidable (groupWF s) := by
  unfold groupWF; infer_instance

/-- Well-formedness of the indirect lists: they reference only group-apply
instructions. -/
def indirectWF (s : MState) : Prop :=
  ∀ p ∈ s.dm, ∀ u ∈ p.2.indirect_decorations,
    (s.instAt u).opcode = SpvOp.GroupDecorate ∨
    (s.instAt u).opcode = SpvOp.GroupMemberDecorate

instance (s : MState) : Decidable (indirectWF s) := by
  unfold indirectWF; infer_instance

/-- The four direct decoration opcodes. -/
def directOpcode (op : SpvOp) : Prop :=
  op = SpvOp.Decorate ∨ op = SpvOp.MemberDecorate ∨
  op = SpvOp.DecorateId ∨ op = SpvOp.DecorateStringGOOGLE

instance (op : SpvOp) : Decidable (directOpcode op) := by
  unfold directOpcode; infer_instance

/-- A Target record whose three collections are all empty. -/
def recordEmpty (td : TargetData) : Prop :=
  td.direct_decorations = [] ∧ td.indirect_decorations = [] ∧
  td.decorate_insts = []

instance (td : TargetData) : Decidable (recordEmpty td) := by
  unfold recordEmpty; infer_instance

/-- The six decoration-section opcodes recognized by the manager. -/
def decorationOpcode (op : SpvOp) : Prop :=
  directOpcode op ∨ op = SpvOp.GroupDecorate ∨ op = SpvOp.GroupMemberDecorate

instance (op : SpvOp) : Decidable (decorationOpcode op) := by
  unfold decorationOpcode; infer_instance

/-- Overwrite the target operand (operand 0) of the instruction carrying
the given handle; all other instructions are untouched. -/
def retarget (uid t : Nat) (i : Instruction) : Instruction :=
  if i.uid == uid then { i with inOperands := i.inOperands.set 0 [t] } else i

/-- Overwrite the target operand (operand 0) of the instruction with the
given handle, in place in the module. -/
def setTargetOperand (s : MState) (uid t : Nat) : MState :=
  ⟨List.map (retarget uid t) s.annotations, s.dm, s.nextUid⟩

/-! Concrete scenario states used by the claim theorems. -/

/-- Scenario for claims C1 and C2: group 1 with decorations d1 (uid 11,
kind 7) and d2 (uid 12, kind 8), applied by the OpGroupDecorate with uid 13
to targets 2 (A) and 3 (B). -/
def annosC1 : List Instruction :=
  [⟨10, SpvOp.DecorationGroup, 1, []⟩,
   ⟨11, SpvOp.Decorate, 0, [[1], [7]]⟩,
   ⟨12, SpvOp.Decorate, 0, [[1], [8]]⟩,
   ⟨13, SpvOp.GroupDecorate, 0, [[1], [2], [3]]⟩]

/-- Scenario state for claims C1 and C2. -/
def sC1 : MState := ⟨annosC1, AnalyzeDecorations annosC1, 14⟩

/-- Predicate dropping decorations of kind 8 (d2) and keeping kind 7 (d1). -/
def predC1 (inst : Instruction) : Bool := inst.getSingleWordInOperand 1 == 8

/-- Scenario for claim C3: one direct decoration (uid 20, kind 9) on id 4. -/
def annosC3 : List Instruction := [⟨20, SpvOp.Decorate, 0, [[4], [9]]⟩]

/-- Scenario state for claim C3. -/
def sC3 : MState := ⟨annosC3, AnalyzeDecorations annosC3, 21⟩

/-- Scenario for claim C4, parametrized by the payload of the single group
decoration: group 1 with one decoration (uid 11), applied by the
OpGroupDecorate with uid 12 to the single target 2 (A). -/
def annosC4 (rest : List (List Nat)) : List Instruction :=
  [⟨10, SpvOp.DecorationGroup, 1, []⟩,
   ⟨11, SpvOp.Decorate, 0, [1] :: rest⟩,
   ⟨12, SpvOp.GroupDecorate, 0, [[1], [2]]⟩]

/-- Scenario state for claim C4. -/
def sC4 (rest : List (List Nat)) : MState :=
  ⟨annosC4 rest, AnalyzeDecorations (annosC4 rest), 13⟩

/-- Corrupted state for claim C6 case (a): the group-apply instruction with
uid 13 is indexed under target 2, but its group id 1 has no record. -/
def sC6a : MState :=
  ⟨[⟨13, SpvOp.GroupDecorate, 0, [[1], [2]]⟩], [(2, ⟨[], [13], []⟩)], 20⟩

/-- Corrupted state for claim C6 case (c): a group-apply instruction stored
in a direct_decorations list reaches the enumeration switch. -/
def sC6c : MState :=
  ⟨[⟨13, SpvOp.GroupDecorate, 0, [[1], [2]]⟩], [(2, ⟨[13], [], []⟩)], 20⟩

/-- Scenario for the claim C5 witness: id 2 carries a direct
LinkageAttributes decoration (uid 13) and, through group 1, the decoration
with uid 11. -/
def annosC5 : List Instruction :=
  [⟨10, SpvOp.DecorationGroup, 1, []⟩,
   ⟨11, SpvOp.Decorate, 0, [[1], [7]]⟩,
   ⟨12, SpvOp.GroupDecorate, 0, [[1], [2]]⟩,
   ⟨13, SpvOp.Decorate, 0, [[2], [41]]⟩]

/-- Scenario state for the claim C5 witness. -/
def sC5 : MState := ⟨annosC5, AnalyzeDecorations annosC5, 14⟩

/-! Helper lemmas shared by the claim theorems. -/

/-- A successful lookup comes from an entry of the association list. -/
theorem assocFind_some_mem (m : DMap) (k : Nat) (td : TargetData)
    (h : assocFind m k = some td) : ∃ p ∈ m, p.2 = td := by
  unfold assocFind at h
  obtain ⟨p, hp, hsnd⟩ := Option.map_eq_some'.mp h
  exact ⟨p, List.mem_of_find?_eq_some hp, hsnd⟩

/-- Boolean form of the linkage-filter equivalence. -/
theorem keep_identity : ∀ a b c : Bool, (c || !(a && b)) = !(a && (b && !c)) := by
  decide

/-- The source's push-back condition coincides with the claim's
omit-unless-includeLinkage filter. -/
theorem includeInst_eq_specKeeps (s : MState) (il : Bool) :
    includeInst s il = specKeeps s il := by
  funext u
  exact keep_identity _ _ il

/-- The group loop of InternalGetDecorationsFor succeeds and returns the
per-group direct lists in order when every named group has a record. -/
theorem groupDirectsList_eq_spec (s : MState) (il : Bool) (l : List Nat)
    (h : ∀ u ∈ l,
      (assocFind s.dm ((s.instAt u).getSingleWordInOperand 0)).isSome = true) :
    groupDirectsList s il l = some
      ((List.map (fun u =>
        List.filter (includeInst s il)
          (match assocFind s.dm ((s.instAt u).getSingleWordInOperand 0) with
           | some g => g.direct_decorations
           | none => [])) l).flatten) := by
  induction l with
  | nil => rfl
  | cons u rest ih =>
    have hu := h u (List.mem_cons_self u rest)
    obtain ⟨g, hg⟩ := Option.isSome_iff_exists.mp hu
    have htail := ih (fun v hv => h v (List.mem_cons_of_mem u hv))
    unfold groupDirectsList
    rw [hg, htail]
    simp [hg]

/-- An id without a record gets the empty decoration sequence. -/
theorem getDecorations_of_none (s : MState) (id : Nat) (il : Bool)
    (h : assocFind s.dm id = none) : GetDecorationsFor s id il = some [] := by
  unfold GetDecorationsFor InternalGetDecorationsFor
  rw [h]

/-- The fingerprint sets of the empty decoration list are empty. -/
theorem fillSetFor_nil (s : MState) (op : SpvOp) : fillSetFor s [] op = ∅ := rfl

/-- A foldl preserves any invariant its step preserves. -/
theorem foldl_preserves {α β : Type} (P : α → Prop) (step : α → β → α)
    (h : ∀ a b, P a → P (step a b)) :
    ∀ (l : List β) (a : α), P a → P (List.foldl step a l) := by
  intro l
  induction l with
  | nil => intro a ha; exact ha
  | cons b rest ih => intro a ha; exact ih (step a b) (h a b ha)

/-- Absence of a key characterized entrywise. -/
theorem assocFind_none_iff (m : DMap) (k : Nat) :
    assocFind m k = none ↔ ∀ p ∈ m, ¬ p.1 = k := by
  unfold assocFind
  rw [Option.map_eq_none', List.find?_eq_none]
  simp

/-- assocUpdateExisting never inserts a key. -/
theorem assocUpdateExisting_none (m : DMap) (j : Nat) (f : TargetData → TargetData)
    (k : Nat) (h : assocFind m k = none) :
    assocFind (assocUpdateExisting m j f) k = none := by
  rw [assocFind_none_iff] at h ⊢
  intro p hp
  obtain ⟨q, hq, hqe⟩ := List.mem_map.mp hp
  have hfst : p.1 = q.1 := by
    rw [← hqe]
    by_cases hc : (q.1 == j) = true
    · rw [if_pos hc]
    · rw [if_neg hc]
  rw [hfst]
  exact h q hq

/-- RemoveDecoration never inserts a key. -/
theorem removeDecoration_none (dm : DMap) (inst : Instruction) (k : Nat)
    (h : assocFind dm k = none) :
    assocFind (RemoveDecoration dm inst) k = none := by
  unfold RemoveDecoration
  rcases inst with ⟨u, op, r, ops⟩
  cases op
  case GroupDecorate =>
    apply assocUpdateExisting_none
    exact foldl_preserves (fun m => assocFind m k = none) _
      (fun m i hm => assocUpdateExisting_none m _ _ k hm) _ dm h
  case GroupMemberDecorate =>
    apply assocUpdateExisting_none
    exact foldl_preserves (fun m => assocFind m k = none) _
      (fun m i hm => assocUpdateExisting_none m _ _ k hm) _ dm h
  case Decorate => exact assocUpdateExisting_none dm _ _ k h
  case MemberDecorate => exact assocUpdateExisting_none dm _ _ k h
  case DecorateId => exact assocUpdateExisting_none dm _ _ k h
  case DecorateStringGOOGLE => exact assocUpdateExisting_none dm _ _ k h
  case DecorationGroup => exact h
  case Nop => exact h

/-- killAll never inserts a key into the index. -/
theorem killAll_none (s : MState) (uids : List Nat) (k : Nat)
    (h : assocFind s.dm k = none) :
    assocFind (killAll s uids).1.dm k = none := by
  unfold killAll
  exact foldl_preserves (fun (a : MState × List Event) => assocFind a.1.dm k = none)
    _ (fun a u ha => removeDecoration_none a.1.dm _ k ha) uids (s, []) h

/-- Erasing a key removes it. -/
theorem assocErase_find_self (m : DMap) (k : Nat) :
    assocFind (assocErase m k) k = none := by
  rw [assocFind_none_iff]
  intro p hp
  have hmem := List.mem_filter.mp hp
  simpa using hmem.2

/-- The final record-pruning step of RemoveDecorationsFrom never leaves an
all-empty record under the processed id. -/
theorem finalize_no_empty (id : Nat) (g : Bool) (s : MState)
    (r : MState × List Event) (h : finalizeRecord id g s = some r) :
    ∀ td, assocFind r.1.dm id = some td → ¬ recordEmpty td := by
  unfold finalizeRecord at h
  by_cases hemp : (((assocFind s.dm id).getD default).direct_decorations.isEmpty &&
      ((assocFind s.dm id).getD default).indirect_decorations.isEmpty &&
      ((assocFind s.dm id).getD default).decorate_insts.isEmpty) = true
  · rw [if_pos hemp] at h
    by_cases hg : g = true
    · rw [if_pos hg] at h
      cases hdef : getDef ⟨s.annotations, assocErase s.dm id, s.nextUid⟩ id with
      | none => rw [hdef] at h; cases h
      | some u =>
        rw [hdef] at h
        cases h
        intro td htd
        have hnone : assocFind (KillInst ⟨s.annotations, assocErase s.dm id,
            s.nextUid⟩ u).1.dm id = none := by
          unfold KillInst
          exact removeDecoration_none _ _ id (assocErase_find_self s.dm id)
        rw [hnone] at htd
        cases htd
    · rw [if_neg hg] at h
      cases h
      intro td htd
      have hnone : assocFind (assocErase s.dm id) id = none :=
        assocErase_find_self s.dm id
      rw [hnone] at htd
      cases htd
  · rw [if_neg hemp] at h
    cases h
    intro td htd hre
    apply hemp
    rw [htd]
    simp [hre.1, hre.2.1, hre.2.2]

/-- mapUpsert keeps every record non-empty when the update function always
produces a non-empty record. -/
theorem mapUpsert_entries (m : DMap) (k : Nat) (f : TargetData → TargetData)
    (hf : ∀ td, ¬ recordEmpty (f td)) (hm : ∀ p ∈ m, ¬ recordEmpty p.2) :
    ∀ p ∈ mapUpsert m k f, ¬ recordEmpty p.2 := by
  intro p hp
  unfold mapUpsert at hp
  split at hp
  · obtain ⟨q, hq, hqe⟩ := List.mem_map.mp hp
    by_cases hc : (q.1 == k) = true
    · rw [if_pos hc] at hqe
      rw [← hqe]
      exact hf q.2
    · rw [if_neg hc] at hqe
      rw [← hqe]
      exact hm q hq
  · rcases List.mem_append.mp hp with hin | hnew
    · exact hm p hin
    · have : p = (k, f default) := by simpa using hnew
      rw [this]
      exact hf default

/-- AddDecoration keeps every record of the index non-empty. -/
theorem addDecoration_entries (dm : DMap) (inst : Instruction)
    (hm : ∀ p ∈ dm, ¬ recordEmpty p.2) :
    ∀ p ∈ AddDecoration dm inst, ¬ recordEmpty p.2 := by
  unfold AddDecoration
  rcases inst with ⟨u, op, r, ops⟩
  cases op
  case GroupDecorate =>
    refine mapUpsert_entries _ _ _ ?_ ?_
    · intro td; simp [recordEmpty]
    · refine foldl_preserves (fun m => ∀ p ∈ m, ¬ recordEmpty p.2) _ ?_ _ dm hm
      intro m i him
      refine mapUpsert_entries _ _ _ ?_ him
      intro td; simp [recordEmpty]
  case GroupMemberDecorate =>
    refine mapUpsert_entries _ _ _ ?_ ?_
    · intro td; simp [recordEmpty]
    · refine foldl_preserves (fun m => ∀ p ∈ m, ¬ recordEmpty p.2) _ ?_ _ dm hm
      intro m i him
      refine mapUpsert_entries _ _ _ ?_ him
      intro td; simp [recordEmpty]
  case Decorate =>
    refine mapUpsert_entries _ _ _ ?_ hm
    intro td; simp [recordEmpty]
  case MemberDecorate =>
    refine mapUpsert_entries _ _ _ ?_ hm
    intro td; simp [recordEmpty]
  case DecorateId =>
    refine mapUpsert_entries _ _ _ ?_ hm
    intro td; simp [recordEmpty]
  case DecorateStringGOOGLE =>
    refine mapUpsert_entries _ _ _ ?_ hm
    intro td; simp [recordEmpty]
  case DecorationGroup => exact hm
  case Nop => exact hm

/-- A successful equivalence comparison pins the opcode and the payload
(everything but the target operand). -/
theorem areSame_parts (a b : Instruction)
    (h : AreDecorationsTheSame a b true = true) :
    a.opcode = b.opcode ∧ payload a = payload b := by
  unfold AreDecorationsTheSame at h
  split at h
  all_goals try exact absurd h (by decide)
  all_goals (
    split at h
    · exact absurd h (by decide)
    · rename_i hcond
      rw [Bool.or_eq_true] at hcond
      push_neg at hcond
      have hop : a.opcode = b.opcode := by simpa using hcond.1
      refine ⟨hop, ?_⟩
      have hd := of_decide_eq_true h
      have hd1 : a.inOperands.drop 1 = b.inOperands.drop 1 := by
        simpa using hd
      unfold payload
      rw [hd1])

/-- Pairwise equivalent (target-ignoring) decoration lists produce the same
fingerprint list for every opcode category. -/
theorem fingerprints_eq (s : MState) (op : SpvOp) (l1 l2 : List Nat)
    (h : List.Forall₂ (fun a b =>
      AreDecorationsTheSame (s.instAt a) (s.instAt b) true = true) l1 l2) :
    List.map payload
      (List.filter (fun i => i.opcode == op) (List.map s.instAt l1)) =
    List.map payload
      (List.filter (fun i => i.opcode == op) (List.map s.instAt l2)) := by
  induction h with
  | nil => rfl
  | @cons a b l1t l2t hab htail ih =>
    obtain ⟨hop, hpay⟩ := areSame_parts _ _ hab
    simp only [List.map_cons, List.filter_cons]
    rw [hop]
    by_cases hc : ((s.instAt b).opcode == op) = true
    · simp [hc, hpay, ih]
    · simp [hc, ih]

/-- Pairwise equivalent decoration lists produce equal fingerprint sets. -/
theorem fillSet_eq_of_forall₂ (s : MState) (op : SpvOp) (l1 l2 : List Nat)
    (h : List.Forall₂ (fun a b =>
      AreDecorationsTheSame (s.instAt a) (s.instAt b) true = true) l1 l2) :
    fillSetFor s l1 op = fillSetFor s l2 op :=
  congrArg List.toFinset (fingerprints_eq s op l1 l2 h)

/-- The instruction found under a handle either carries that handle or is
the default placeholder for a dangling handle. -/
theorem instAt_uid (s : MState) (u : Nat) :
    (s.instAt u).uid = u ∨ s.instAt u = default := by
  unfold MState.instAt listInstAt
  cases hf : List.find? (fun i => i.uid == u) s.annotations with
  | none => right; rfl
  | some i =>
    left
    have := List.find?_some hf
    simpa using this

/-- Retargeting does not change the instruction handle. -/
theorem retarget_uid (uid t : Nat) (i : Instruction) :
    (retarget uid t i).uid = i.uid := by
  unfold retarget; split <;> rfl

/-- Retargeting does not change the opcode. -/
theorem retarget_opcode (uid t : Nat) (i : Instruction) :
    (retarget uid t i).opcode = i.opcode := by
  unfold retarget; split <;> rfl

/-- Dropping the head is unaffected by overwriting position 0. -/
theorem drop_one_set_zero (l : List (List Nat)) (a : List Nat) :
    (l.set 0 a).drop 1 = l.drop 1 := by
  cases l <;> rfl

/-- Reading past position 0 is unaffected by overwriting position 0. -/
theorem getD_one_set_zero (l : List (List Nat)) (a d : List Nat) :
    (l.set 0 a).getD 1 d = l.getD 1 d := by
  cases l <;> rfl

/-- Retargeting does not change the payload fingerprint. -/
theorem retarget_payload (uid t : Nat) (i : Instruction) :
    payload (retarget uid t i) = payload i := by
  unfold retarget
  split
  · unfold payload
    show ((i.inOperands.set 0 [t]).drop 1).flatten = (i.inOperands.drop 1).flatten
    rw [drop_one_set_zero]
  · rfl

/-- Retargeting does not change the decoration-kind operand. -/
theorem retarget_word1 (uid t : Nat) (i : Instruction) :
    (retarget uid t i).getSingleWordInOperand 1 = i.getSingleWordInOperand 1 := by
  unfold retarget
  split
  · unfold Instruction.getSingleWordInOperand Instruction.getInOperand
    show ((i.inOperands.set 0 [t]).getD 1 []).headD 0 =
      ((i.inOperands).getD 1 []).headD 0
    rw [getD_one_set_zero]
  · rfl

/-- Dereferencing in the retargeted module is retargeting the dereference. -/
theorem instAt_setTarget (s : MState) (uid t u : Nat) :
    (setTargetOperand s uid t).instAt u = retarget uid t (s.instAt u) := by
  unfold setTargetOperand MState.instAt listInstAt
  rw [List.find?_map]
  have hcomp : ((fun i : Instruction => i.uid == u) ∘ retarget uid t) =
      (fun i : Instruction => i.uid == u) := by
    funext i
    show ((retarget uid t i).uid == u) = (i.uid == u)
    rw [retarget_uid]
  rw [hcomp]
  cases hf : List.find? (fun i : Instruction => i.uid == u) s.annotations with
  | none =>
    show (default : Instruction) = retarget uid t default
    unfold retarget
    split <;> rfl
  | some i => rfl

/-- The index is untouched by retargeting an instruction. -/
theorem setTarget_dm (s : MState) (uid t : Nat) :
    (setTargetOperand s uid t).dm = s.dm := rfl

/-- The linkage filter is unaffected by retargeting. -/
theorem includeInst_setTarget (s : MState) (uid t : Nat) (il : Bool) :
    includeInst (setTargetOperand s uid t) il = includeInst s il := by
  funext u
  unfold includeInst
  rw [instAt_setTarget, retarget_opcode, retarget_word1]

/-- Dereferencing a group-apply handle is unaffected by retargeting a
direct-form instruction. -/
theorem instAt_setTarget_of_group (s : MState) (uid t u : Nat)
    (hdir : directOpcode ((s.instAt uid).opcode))
    (hgrp : (s.instAt u).opcode = SpvOp.GroupDecorate ∨
            (s.instAt u).opcode = SpvOp.GroupMemberDecorate) :
    (setTargetOperand s uid t).instAt u = s.instAt u := by
  rw [instAt_setTarget]
  unfold retarget
  by_cases hc : ((s.instAt u).uid == uid) = true
  · exfalso
    rcases instAt_uid s u with hu | hu
    · have hceq : (s.instAt u).uid = uid := by simpa using hc
      have huid : u = uid := by
        rw [← hu]
        exact hceq
      rw [huid] at hgrp
      rcases hdir with h | h | h | h <;> rcases hgrp with h2 | h2 <;>
        rw [h] at h2 <;> cases h2
    · rcases hgrp with h2 | h2 <;> rw [hu] at h2 <;>
        exact absurd h2 (by decide)
  · rw [if_neg hc]

/-- The group-resolution loop is unaffected by retargeting a direct-form
instruction, for a list of well-formed group-apply handles. -/
theorem groupDirectsList_setTarget (s : MState) (uid t : Nat) (il : Bool)
    (hdir : directOpcode ((s.instAt uid).opcode)) (l : List Nat)
    (hl : ∀ u ∈ l, (s.instAt u).opcode = SpvOp.GroupDecorate ∨
          (s.instAt u).opcode = SpvOp.GroupMemberDecorate) :
    groupDirectsList (setTargetOperand s uid t) il l =
      groupDirectsList s il l := by
  induction l with
  | nil => rfl
  | cons u rest ih =>
    unfold groupDirectsList
    rw [setTarget_dm,
      instAt_setTarget_of_group s uid t u hdir (hl u (List.mem_cons_self u rest)),
      includeInst_setTarget,
      ih (fun v hv => hl v (List.mem_cons_of_mem u hv))]

/-- The decoration lookup is unaffected by retargeting a direct-form
instruction when the index's indirect lists are well formed. -/
theorem getDecorations_setTarget (s : MState) (uid t id : Nat) (il : Bool)
    (hdir : directOpcode ((s.instAt uid).opcode)) (hwf : indirectWF s) :
    GetDecorationsFor (setTargetOperand s uid t) id il =
      GetDecorationsFor s id il := by
  unfold GetDecorationsFor InternalGetDecorationsFor
  rw [setTarget_dm]
  cases hf : assocFind s.dm id with
  | none => rfl
  | some td =>
    obtain ⟨p, hpmem, hpsnd⟩ := assocFind_some_mem s.dm id td hf
    have h1 := groupDirectsList_setTarget s uid t il hdir td.indirect_decorations
      (fun u hu => hwf p hpmem u (hpsnd.symm ▸ hu))
    simp only [h1, includeInst_setTarget]

/-- Fingerprint lists are unaffected by retargeting. -/
theorem fingerprints_setTarget (s : MState) (uid t : Nat) (op : SpvOp)
    (l : List Nat) :
    List.map payload (List.filter (fun i => i.opcode == op)
      (List.map (setTargetOperand s uid t).instAt l)) =
    List.map payload (List.filter (fun i => i.opcode == op)
      (List.map s.instAt l)) := by
  induction l with
  | nil => rfl
  | cons u rest ih =>
    simp only [List.map_cons, List.filter_cons]
    rw [instAt_setTarget, retarget_opcode]
    by_cases hc : ((s.instAt u).opcode == op) = true
    · simp [hc, retarget_payload, ih]
    · simp [hc, ih]

/-- Fingerprint sets are unaffected by retargeting. -/
theorem fillSet_setTarget (s : MState) (uid t : Nat) (l : List Nat)
    (op : SpvOp) :
    fillSetFor (setTargetOperand s uid t) l op = fillSetFor s l op :=
  congrArg List.toFinset (fingerprints_setTarget s uid t op l)

/-! Claim theorems. -/

/-- Claim C1.  The code diverges from the claim: in the partial-removal
scenario (group 1 with kept d1 and dropped d2, applied to A = 2 and B = 3),
removeDecorationsFrom(A, pred) does create a direct clone of d1 retargeted
to A (uid 14) and inserts it into the module, and A is removed from the
group-apply operand list while B still sees d1 and d2 through the group;
but the clone is never added to the index and A's record is erased, so
decorationsFor(A, true) returns the empty list instead of containing the
clone of d1. -/
theorem c1_divergence :
    (RemoveDecorationsFrom sC1 2 predC1).map (fun r =>
      (GetDecorationsFor r.1 2 true,
       r.1.instAt 14,
       r.1.instAt 13,
       GetDecorationsFor r.1 3 true,
       assocFind r.1.dm 2))
    = some (some [],
        ⟨14, SpvOp.Decorate, 0, [[2], [7]]⟩,
        ⟨13, SpvOp.GroupDecorate, 0, [[1], [3]]⟩,
        some [11, 12],
        none) := rfl

/-- Claim C2.  The code diverges from the claim: in the same scenario the
operand-list compaction of the group-apply instruction (uid 13) is
performed first, and forgetUses/analyzeUses are only called afterwards
(around an internal bookkeeping insertion), so the mutation events are not
bracketed as claimed. -/
theorem c2_divergence :
    (RemoveDecorationsFrom sC1 2 predC1).map (fun r =>
      (isBracketed [13] r.2, r.2.contains (Event.mutateOperands 13)))
    = some (false, true) := by decide

/-- Claim C3.  The code diverges from the claim: after
cloneDecorations(4, 5) the clone (uid 21, retargeted to 5) is inserted into
the module annotation list, and decorationsFor(4, true) is unchanged, but
the index is never updated, so decorationsFor(5, true) is empty rather than
containing a decoration equivalent to the one on 4. -/
theorem c3_divergence :
    (CloneDecorations sC3 4 5).map (fun r =>
      (GetDecorationsFor r.1 5 true, GetDecorationsFor r.1 4 true,
       r.1.annotations, r.1.dm))
    = some (some [], some [20],
        [⟨20, SpvOp.Decorate, 0, [[4], [9]]⟩,
         ⟨21, SpvOp.Decorate, 0, [[5], [9]]⟩],
        [(4, ⟨[20], [], []⟩)]) := rfl

/-- Claim C4, counterexample.  In the group-emptying scenario (group 1 with
a single decoration, applied only to A = 2), removeDecorationsFrom(A,
alwaysTrue) does not delete the group-defining OpDecorationGroup (uid 10):
the surviving module still contains uids 10 and 11, contradicting the claim
that the instruction defining the group is deleted. -/
theorem c4_counterexample :
    (RemoveDecorationsFrom (sC4 [[7]]) 2 (fun _ => true)).map (fun r =>
      List.map Instruction.uid r.1.annotations) = some [10, 11] := rfl

/-- Claim C4, amended: removeDecorationsFrom(A, alwaysTrue) deletes the
group-apply instruction (uid 12) and removes A's record entirely, but the
group-defining instruction and the group's decoration remain (the group
definition is only deleted when the group id itself is emptied by a
removeDecorationsFrom call on it). -/
theorem c4_amended :
    (RemoveDecorationsFrom (sC4 [[9], [5]]) 2 (fun _ => true)).map (fun r =>
      (r.1.annotations, r.1.dm, r.2))
    = some ([⟨10, SpvOp.DecorationGroup, 1, []⟩,
             ⟨11, SpvOp.Decorate, 0, [[1], [9], [5]]⟩],
            [(1, ⟨[11], [], []⟩)],
            [Event.mutateOperands 12, Event.killInst 12]) := rfl

/-- Claim C5: under the invariant that every group named by an indexed
group-apply instruction has a record, decorationsFor(id, includeLinkage)
returns exactly the sequence described by the claim: the direct decorations
in stored order, then the direct decorations of each group in the order of
the indirect list (one level of indirection only), with OpDecorate
instructions whose decoration kind is LinkageAttributes omitted unless
includeLinkage is set, and the empty sequence (not an error) for an id
without a record. -/
theorem c5_lookup_refines (s : MState) (id : Nat) (il : Bool) (h : groupWF s) :
    GetDecorationsFor s id il = some (specDecorationsFor s id il) := by
  unfold GetDecorationsFor InternalGetDecorationsFor specDecorationsFor
  cases hf : assocFind s.dm id with
  | none => rfl
  | some td =>
    obtain ⟨p, hpmem, hpsnd⟩ := assocFind_some_mem s.dm id td hf
    have hgl := groupDirectsList_eq_spec s il td.indirect_decorations
      (fun u hu => h p hpmem u (hpsnd.symm ▸ hu))
    simp only [hgl, includeInst_eq_specKeeps]

/-- Witness for claim C5. -/
theorem c5_witness :
    GetDecorationsFor sC5 2 false = some (specDecorationsFor sC5 2 false) :=
  c5_lookup_refines sC5 2 false (by decide)

/-- Claim C6, counterexample to part (b): an instruction whose opcode is
outside the four direct decoration forms passed to the equivalence
comparator does not abort; AreDecorationsTheSame returns false normally. -/
theorem c6_counterexample :
    AreDecorationsTheSame ⟨13, SpvOp.GroupDecorate, 0, [[1], [2]]⟩
      ⟨13, SpvOp.GroupDecorate, 0, [[1], [2]]⟩ false = false := by decide

/-- Claim C6, amended: (a) a group-apply instruction referencing a group id
without a record is a fatal assertion in decorationsFor and in
removeDecorationsFrom; (b) the comparator returns false, without aborting,
for any opcode outside the four direct forms; (c) the enumeration
(forEachDecoration) asserts on a decoration-list instruction whose opcode
is outside the four direct forms, while unindex silently ignores an
instruction whose opcode is none of the six recognized forms. -/
theorem c6_amended :
    (∀ i1 i2 b, ¬ directOpcode i1.opcode →
      AreDecorationsTheSame i1 i2 b = false) ∧
    GetDecorationsFor sC6a 2 true = none ∧
    RemoveDecorationsFrom sC6a 2 (fun _ => true) = none ∧
    WhileEachDecoration sC6c 2 7 (fun _ => true) = none ∧
    (∀ dm inst, ¬ decorationOpcode inst.opcode →
      RemoveDecoration dm inst = dm) := by
  refine ⟨?_, rfl, rfl, rfl, ?_⟩
  · intro i1 i2 b h
    rcases i1 with ⟨u, op, r, ops⟩
    cases op
    case Decorate => exact absurd (Or.inl rfl) h
    case MemberDecorate => exact absurd (Or.inr (Or.inl rfl)) h
    case DecorateId => exact absurd (Or.inr (Or.inr (Or.inl rfl))) h
    case DecorateStringGOOGLE => exact absurd (Or.inr (Or.inr (Or.inr rfl))) h
    all_goals rfl
  · intro dm inst h
    rcases inst with ⟨u, op, r, ops⟩
    cases op
    case Decorate => exact absurd (Or.inl (Or.inl rfl)) h
    case MemberDecorate => exact absurd (Or.inl (Or.inr (Or.inl rfl))) h
    case DecorateId => exact absurd (Or.inl (Or.inr (Or.inr (Or.inl rfl)))) h
    case DecorateStringGOOGLE =>
      exact absurd (Or.inl (Or.inr (Or.inr (Or.inr rfl)))) h
    case GroupDecorate => exact absurd (Or.inr (Or.inl rfl)) h
    case GroupMemberDecorate => exact absurd (Or.inr (Or.inr rfl)) h
    all_goals rfl

/-- Witness for the amended claim C6. -/
theorem c6_witness :
    AreDecorationsTheSame ⟨0, SpvOp.Nop, 0, []⟩ ⟨0, SpvOp.Nop, 0, []⟩ true
      = false :=
  c6_amended.1 ⟨0, SpvOp.Nop, 0, []⟩ ⟨0, SpvOp.Nop, 0, []⟩ true (by decide)

/-- Claim C7, counterexample: unindexing (RemoveDecoration) the only direct
decoration of id 5 leaves id 5 as a key of the mapping with all three
collections empty, contradicting the claim for the unindex operation. -/
theorem c7_counterexample :
    assocFind
      (RemoveDecoration (AnalyzeDecorations [⟨10, SpvOp.Decorate, 0, [[5], [7]]⟩])
        ⟨10, SpvOp.Decorate, 0, [[5], [7]]⟩) 5
      = some ⟨[], [], []⟩ := rfl

/-- Claim C7, amended: after build on an empty index every key maps to a
record with at least one non-empty collection; removeDecorationsFrom never
leaves an all-empty record under the id it processed (it erases the record
instead); and cloneDecorations leaves the index untouched.  The unindex
operation (RemoveDecoration), however, does not prune records, so an
all-empty record can remain after it (see the counterexample); the same can
happen to another id's record when group-apply instructions are deleted. -/
theorem c7_amended :
    (∀ (annos : List Instruction), ∀ p : Nat × TargetData,
      p ∈ AnalyzeDecorations annos → ¬ recordEmpty p.2) ∧
    (∀ (s : MState) (id : Nat) (pred : Instruction → Bool) r,
      RemoveDecorationsFrom s id pred = some r →
      ∀ td, assocFind r.1.dm id = some td → ¬ recordEmpty td) ∧
    (∀ (s : MState) (fromId toId : Nat) r,
      CloneDecorations s fromId toId = some r → r.1.dm = s.dm) := by
  refine ⟨?_, ?_, ?_⟩
  · intro annos
    unfold AnalyzeDecorations
    refine foldl_preserves (fun (m : DMap) => ∀ p ∈ m, ¬ recordEmpty p.2) _ ?_
      annos [] ?_
    · intro a b ha
      exact addDecoration_entries a b ha
    · intro p hp
      cases hp
  · intro s id pred r h
    unfold RemoveDecorationsFrom at h
    split at h
    · rename_i heq
      cases h
      intro td htd
      rw [heq] at htd
      cases htd
    · rename_i info heq
      split at h
      · cases h
      · rename_i s2 tr2 hcore
        split at h
        rename_i s3 tr3 hge
        split at h
        · cases h
        · rename_i s4 tr4 hfin
          cases h
          exact finalize_no_empty id _ s3 (s4, tr4) hfin
  · intro s fromId toId r h
    unfold CloneDecorations at h
    split at h
    · cases h
      rfl
    · rename_i dl heq
      split at h
      rename_i annos1 next1 tr1 hd
      split at h
      · cases h
      · rename_i annos2 tr2 hstep
        cases h
        rfl

/-- Witness for the amended claim C7. -/
theorem c7_witness : ¬ recordEmpty ⟨[20], [], []⟩ :=
  c7_amended.2.1 sC3 4 (fun _ => false) (sC3, []) rfl ⟨[20], [], []⟩ rfl

/-- Claim C8: sameDecorations is symmetric; two ids whose decoration lists
are pairwise equivalent ignoring targets (identical content, possibly
different target operands) compare as equal; and overwriting only the
target operand of a direct decoration instruction never changes the result
of sameDecorations (given the index invariant that indirect lists reference
group-apply instructions). -/
theorem c8_same_decorations :
    (∀ (s : MState) (X Y : Nat),
      HaveTheSameDecorations s X Y = HaveTheSameDecorations s Y X) ∧
    (∀ (s : MState) (X Y : Nat) (l1 l2 : List Nat),
      GetDecorationsFor s X false = some l1 →
      GetDecorationsFor s Y false = some l2 →
      List.Forall₂ (fun a b =>
        AreDecorationsTheSame (s.instAt a) (s.instAt b) true = true) l1 l2 →
      HaveTheSameDecorations s X Y = some true) ∧
    (∀ (s : MState) (uid t X Y : Nat),
      directOpcode ((s.instAt uid).opcode) → indirectWF s →
      HaveTheSameDecorations (setTargetOperand s uid t) X Y =
        HaveTheSameDecorations s X Y) := by
  refine ⟨?_, ?_, ?_⟩
  · intro s X Y
    unfold HaveTheSameDecorations
    cases hx : GetDecorationsFor s X false with
    | none =>
      cases hy : GetDecorationsFor s Y false with
      | none => rfl
      | some l2 => simp
    | some l1 =>
      cases hy : GetDecorationsFor s Y false with
      | none => simp
      | some l2 =>
        simp only [Option.bind_eq_bind, Option.some_bind]
        refine congrArg (fun b => pure b) ?_
        rw [decide_eq_decide]
        constructor
        · rintro ⟨h1, h2, h3, h4⟩
          exact ⟨h1.symm, h2.symm, h3.symm, h4.symm⟩
        · rintro ⟨h1, h2, h3, h4⟩
          exact ⟨h1.symm, h2.symm, h3.symm, h4.symm⟩
  · intro s X Y l1 l2 h1 h2 hf
    unfold HaveTheSameDecorations
    rw [h1, h2]
    simp only [Option.bind_eq_bind, Option.some_bind, Option.some.injEq]
    rw [fillSet_eq_of_forall₂ s SpvOp.Decorate l1 l2 hf,
      fillSet_eq_of_forall₂ s SpvOp.DecorateId l1 l2 hf,
      fillSet_eq_of_forall₂ s SpvOp.MemberDecorate l1 l2 hf,
      fillSet_eq_of_forall₂ s SpvOp.DecorateStringGOOGLE l1 l2 hf]
    simp
  · intro s uid t X Y hdir hwf
    unfold HaveTheSameDecorations
    rw [getDecorations_setTarget s uid t X false hdir hwf,
      getDecorations_setTarget s uid t Y false hdir hwf]
    cases hx : GetDecorationsFor s X false with
    | none => rfl
    | some l1 =>
      cases hy : GetDecorationsFor s Y false with
      | none => rfl
      | some l2 =>
        simp only [Option.bind_eq_bind, Option.some_bind, Option.some.injEq,
          fillSet_setTarget]

/-- Witness for claim C8. -/
theorem c8_witness :
    HaveTheSameDecorations (setTargetOperand sC1 11 99) 2 3 =
      HaveTheSameDecorations sC1 2 3 :=
  c8_same_decorations.2.2 sC1 11 99 2 3 (by decide) (by decide)

/-- Claim C9: when the source id has no record, cloneDecorations is a
complete no-op: the state (module, index, fresh-handle counter) is
unchanged and no event is emitted. -/
theorem c9_clone_noop (s : MState) (fromId toId : Nat)
    (h : assocFind s.dm fromId = none) :
    CloneDecorations s fromId toId = some (s, []) := by
  unfold CloneDecorations
  rw [h]

/-- Witness for claim C9. -/
theorem c9_witness : CloneDecorations sC3 99 5 = some (sC3, []) :=
  c9_clone_noop sC3 99 5 (by decide)

/-- Claim C10: two ids with no record both yield the empty decoration list,
whose four fingerprint sets are all empty, so sameDecorations returns
true. -/
theorem c10_undecorated (s : MState) (X Y : Nat)
    (h1 : assocFind s.dm X = none) (h2 : assocFind s.dm Y = none) :
    HaveTheSameDecorations s X Y = some true := by
  unfold HaveTheSameDecorations
  rw [getDecorations_of_none s X false h1, getDecorations_of_none s Y false h2]
  simp only [Option.bind_eq_bind, Option.some_bind, Option.some.injEq,
    decide_eq_true_eq, fillSetFor_nil]
  rfl

/-- Witness for claim C10. -/
theorem c10_witness : HaveTheSameDecorations sC3 1 2 = some true :=
  c10_undecorated sC3 1 2 (by decide) (by decide)

end SpvOpt
